import Mathlib

/-!
Verification of the icam-factory violation-detection and alerting core.

The definitions below are a shallow embedding of the Python sources:
`src/stream.py` (camera frame slot), `src/detectors.py` (DangerZoneDetector,
NoHelmetDetector) and `src/alerts.py` (save_alert, trigger_alert,
get_recent_alerts).  Pixel coordinates coming from the tracker are modelled
as exact rationals (the floats in play in the statements are exact at the
scales involved); frames are opaque values; the sqlite table is a list of
rows in insertion order.
-/

/-- Frames are opaque pixel buffers; only identity matters to the claims. -/
abbrev Frame := ℕ

/-! ## Camera frame slot (src/stream.py)

`Camera._update_frame` runs `_, self.last_frame = self.vcap.read()`: the
success flag of the read is discarded and the frame component of the read
result (which is empty on a failed read) is stored unconditionally.
`Camera.get_last_frame` returns a copy of the slot (copying is the identity
on frame values in this model). -/

/-- One loop iteration of `Camera._update_frame`: the read result is a pair
(success flag, optional frame) and the slot is overwritten with the frame
component, the flag being discarded. -/
def camera_update_frame (last_frame : Option Frame)
    (read_result : Bool × Option Frame) : Option Frame :=
  read_result.2

/-- `Camera.get_last_frame`: returns (a copy of) the slot content. -/
def get_last_frame (last_frame : Option Frame) : Option Frame :=
  last_frame

/-! ## Point-in-polygon test (src/detectors.py, DangerZoneDetector)

`check_zone` decides containment by `cv2.pointPolygonTest(zone, center,
False) >= 0`.  `pointPolygonTest` itself is OpenCV code. Modelled from the
spec: a standard even-odd (ray-casting) point-in-polygon test over the
closed edge cycle of the polygon, returning `0` for a point exactly on the
boundary, `1` strictly inside and `-1` strictly outside; the repository's
`>= 0` comparison then counts the boundary as inside. -/

/-- Cross product of `b - a` with `p - a`; zero iff the three points are
collinear. -/
def cross2 (a b p : ℤ × ℤ) : ℤ :=
  (b.1 - a.1) * (p.2 - a.2) - (b.2 - a.2) * (p.1 - a.1)

/-- The point `p` lies on the closed segment from `a` to `b`. -/
def OnSegment (a b p : ℤ × ℤ) : Prop :=
  cross2 a b p = 0 ∧ min a.1 b.1 ≤ p.1 ∧ p.1 ≤ max a.1 b.1 ∧
    min a.2 b.2 ≤ p.2 ∧ p.2 ≤ max a.2 b.2

instance (a b p : ℤ × ℤ) : Decidable (OnSegment a b p) :=
  inferInstanceAs (Decidable (cross2 a b p = 0 ∧ min a.1 b.1 ≤ p.1 ∧
    p.1 ≤ max a.1 b.1 ∧ min a.2 b.2 ≤ p.2 ∧ p.2 ≤ max a.2 b.2))

/-- The closed edge cycle of a polygon: each vertex paired with its cyclic
successor. -/
def polygonEdges (poly : List (ℤ × ℤ)) : List ((ℤ × ℤ) × (ℤ × ℤ)) :=
  poly.zip (poly.rotate 1)

/-- The point lies on some edge of the polygon. -/
def onBoundary (poly : List (ℤ × ℤ)) (p : ℤ × ℤ) : Bool :=
  (polygonEdges poly).any fun e => decide (OnSegment e.1 e.2 p)

/-- Exact integer form of the ray-casting crossing test for one edge: the
horizontal ray from `p` to the right crosses the open-above edge. -/
def edgeCrosses (p : ℤ × ℤ) (e : (ℤ × ℤ) × (ℤ × ℤ)) : Bool :=
  let a := e.1
  let b := e.2
  if (decide (a.2 > p.2)) != (decide (b.2 > p.2)) then
    if b.2 - a.2 > 0 then
      decide ((p.1 - a.1) * (b.2 - a.2) < (b.1 - a.1) * (p.2 - a.2))
    else
      decide ((p.1 - a.1) * (b.2 - a.2) > (b.1 - a.1) * (p.2 - a.2))
  else false

/-- Modelled from the spec: `cv2.pointPolygonTest(poly, p, False)` — returns
`0` on the boundary, `1` inside (odd crossing number), `-1` outside. -/
def pointPolygonTest (poly : List (ℤ × ℤ)) (p : ℤ × ℤ) : ℤ :=
  if onBoundary poly p then 0
  else if ((polygonEdges poly).countP (edgeCrosses p)) % 2 = 1 then 1
  else -1

/-- The containment decision of `check_zone`: `pointPolygonTest ... >= 0`. -/
def pointInZone (poly : List (ℤ × ℤ)) (p : ℤ × ℤ) : Bool :=
  decide (pointPolygonTest poly p ≥ 0)

/-! ## Detections and detectors (src/detectors.py) -/

/-- Python `int()` applied to a rational: truncation toward zero (the
detectors compute `int((x1 + x2) / 2)` for box centers). -/
def truncQ (q : ℚ) : ℤ :=
  if 0 ≤ q then ⌊q⌋ else ⌈q⌉

/-- One YOLO box as consumed by the detectors: optional class id
(`int(box.cls[0])` when present), optional track id (`int(box.id[0])` when
present) and the `xyxy` corner coordinates. -/
structure Box where
  cls : Option ℤ
  tid : Option ℤ
  x1 : ℚ
  y1 : ℚ
  x2 : ℚ
  y2 : ℚ
deriving DecidableEq

/-- The two alert kinds accepted by `save_alert`. -/
inductive AlertType where
  | danger_zone
  | no_helmet
deriving DecidableEq

/-- One call to `save_alert` made by a detector, with the arguments it
passes (the frame argument is omitted: only the alert's identity matters
to the emission claims). -/
structure AlertEvent where
  camera_id : ℤ
  alert_type : AlertType
  track_id : Option ℤ
  details : String
deriving DecidableEq

/-- State of `DangerZoneDetector`: camera id, zone polygon, and the set of
track ids that have already triggered alerts. -/
structure DangerZoneDetector where
  camera_id : ℤ
  zone_polygon : List (ℤ × ℤ)
  alerted_tracks : Finset ℤ
deriving DecidableEq

/-- The body of `DangerZoneDetector.check_zone` over the detection list of
one frame: for each box of person class (class id 2 in this model, as in
the source) whose center lies in the zone, a marker is drawn (first
component); if the box carries a fresh track id, `save_alert` is called
(second component) and the id is added to `alerted_tracks`. -/
def checkZoneBoxes (d : DangerZoneDetector) :
    List Box → List (ℤ × ℤ) × List AlertEvent × DangerZoneDetector
  | [] => ([], [], d)
  | b :: rest =>
    if b.cls = some 2 then
      let cx := truncQ ((b.x1 + b.x2) / 2)
      let cy := truncQ ((b.y1 + b.y2) / 2)
      if pointInZone d.zone_polygon (cx, cy) then
        match b.tid with
        | some t =>
          if t ∉ d.alerted_tracks then
            let ev : AlertEvent :=
              { camera_id := d.camera_id, alert_type := .danger_zone,
                track_id := some t,
                details := "Person entered danger zone at (" ++ toString cx
                  ++ ", " ++ toString cy ++ ")" }
            let r := checkZoneBoxes
              { d with alerted_tracks := insert t d.alerted_tracks } rest
            ((cx, cy) :: r.1, ev :: r.2.1, r.2.2)
          else
            let r := checkZoneBoxes d rest
            ((cx, cy) :: r.1, r.2.1, r.2.2)
        | none =>
          let r := checkZoneBoxes d rest
          ((cx, cy) :: r.1, r.2.1, r.2.2)
      else checkZoneBoxes d rest
    else checkZoneBoxes d rest

/-- Feeding a sequence of frames to one `DangerZoneDetector` instance,
collecting all markers and all alerts. -/
def runZone (d : DangerZoneDetector) :
    List (List Box) → List (ℤ × ℤ) × List AlertEvent × DangerZoneDetector
  | [] => ([], [], d)
  | f :: fs =>
    let r := checkZoneBoxes d f
    let s := runZone r.2.2 fs
    (r.1 ++ s.1, r.2.1 ++ s.2.1, s.2.2)

/-- State of `NoHelmetDetector`. -/
structure NoHelmetDetector where
  camera_id : ℤ
  alerted_tracks : Finset ℤ
deriving DecidableEq

/-- The helmet/person association test of `check_helmet`: the helmet box
horizontally overlaps the person box and vertically straddles the upper
30% boundary of the person box (the float literal 0.3 is modelled as the
exact rational 3/10). -/
def HelmetCovers (p h : Box) : Prop :=
  h.x1 < p.x2 ∧ h.x2 > p.x1 ∧
    h.y1 < p.y1 + (p.y2 - p.y1) * (3 / 10) ∧ h.y2 > p.y1

instance (p h : Box) : Decidable (HelmetCovers p h) :=
  inferInstanceAs (Decidable (h.x1 < p.x2 ∧ h.x2 > p.x1 ∧
    h.y1 < p.y1 + (p.y2 - p.y1) * (3 / 10) ∧ h.y2 > p.y1))

/-- The inner loop of `check_helmet`: some helmet detection covers this
person's head area. -/
def hasHelmet (p : Box) (helmet_boxes : List Box) : Bool :=
  helmet_boxes.any fun h => decide (HelmetCovers p h)

/-- The per-person loop of `check_helmet`: a person without a qualifying
helmet gets a rectangle and label drawn (first component, the rectangle's
integer corners); if it carries a fresh track id, `save_alert` is called
and the id is recorded. -/
def checkHelmetPersons (d : NoHelmetDetector) (helmet_boxes : List Box) :
    List Box → List (ℤ × ℤ × ℤ × ℤ) × List AlertEvent × NoHelmetDetector
  | [] => ([], [], d)
  | p :: rest =>
    if hasHelmet p helmet_boxes then checkHelmetPersons d helmet_boxes rest
    else
      let rect := (truncQ p.x1, truncQ p.y1, truncQ p.x2, truncQ p.y2)
      match p.tid with
      | some t =>
        if t ∉ d.alerted_tracks then
          let ev : AlertEvent :=
            { camera_id := d.camera_id, alert_type := .no_helmet,
              track_id := some t,
              details := "Person without helmet detected" }
          let r := checkHelmetPersons
            { d with alerted_tracks := insert t d.alerted_tracks }
            helmet_boxes rest
          (rect :: r.1, ev :: r.2.1, r.2.2)
        else
          let r := checkHelmetPersons d helmet_boxes rest
          (rect :: r.1, r.2.1, r.2.2)
      | none =>
        let r := checkHelmetPersons d helmet_boxes rest
        (rect :: r.1, r.2.1, r.2.2)

/-- `NoHelmetDetector.check_helmet` over one frame's detections: partition
into person boxes (class 2) and helmet boxes (class 0), then process each
person. -/
def checkHelmet (d : NoHelmetDetector) (boxes : List Box) :
    List (ℤ × ℤ × ℤ × ℤ) × List AlertEvent × NoHelmetDetector :=
  let person_boxes := boxes.filter fun b => decide (b.cls = some 2)
  let helmet_boxes := boxes.filter fun b => decide (b.cls = some 0)
  checkHelmetPersons d helmet_boxes person_boxes

/-- Feeding a sequence of frames to one `NoHelmetDetector` instance. -/
def runHelmet (d : NoHelmetDetector) :
    List (List Box) → List (ℤ × ℤ × ℤ × ℤ) × List AlertEvent × NoHelmetDetector
  | [] => ([], [], d)
  | f :: fs =>
    let r := checkHelmet d f
    let s := runHelmet r.2.2 fs
    (r.1 ++ s.1, r.2.1 ++ s.2.1, s.2.2)

/-! ## Exception-aware detector semantics

In Python an exception raised by `save_alert` propagates out of
`check_zone` / `check_helmet` before `self.alerted_tracks.add(track_id)`
runs.  The variants below thread an oracle `saveOk` deciding whether the
k-th `save_alert` call of the run raises; on a raise they stop and return
the detector's dedup set as it stands at that moment together with the
track id whose alert failed. -/

/-- `check_zone` with fallible `save_alert`; `k` counts the calls made so
far. On success returns the updated call counter and detector. -/
def checkZoneBoxesE (saveOk : ℕ → Bool) (k : ℕ) (d : DangerZoneDetector) :
    List Box → Except (Finset ℤ × ℤ) (ℕ × DangerZoneDetector)
  | [] => .ok (k, d)
  | b :: rest =>
    if b.cls = some 2 then
      let cx := truncQ ((b.x1 + b.x2) / 2)
      let cy := truncQ ((b.y1 + b.y2) / 2)
      if pointInZone d.zone_polygon (cx, cy) then
        match b.tid with
        | some t =>
          if t ∉ d.alerted_tracks then
            if saveOk k then
              checkZoneBoxesE saveOk (k + 1)
                { d with alerted_tracks := insert t d.alerted_tracks } rest
            else .error (d.alerted_tracks, t)
          else checkZoneBoxesE saveOk k d rest
        | none => checkZoneBoxesE saveOk k d rest
      else checkZoneBoxesE saveOk k d rest
    else checkZoneBoxesE saveOk k d rest

/-- `check_helmet`'s per-person loop with fallible `save_alert`. -/
def checkHelmetPersonsE (saveOk : ℕ → Bool) (k : ℕ) (d : NoHelmetDetector)
    (helmet_boxes : List Box) :
    List Box → Except (Finset ℤ × ℤ) (ℕ × NoHelmetDetector)
  | [] => .ok (k, d)
  | p :: rest =>
    if hasHelmet p helmet_boxes then
      checkHelmetPersonsE saveOk k d helmet_boxes rest
    else
      match p.tid with
      | some t =>
        if t ∉ d.alerted_tracks then
          if saveOk k then
            checkHelmetPersonsE saveOk (k + 1)
              { d with alerted_tracks := insert t d.alerted_tracks }
              helmet_boxes rest
          else .error (d.alerted_tracks, t)
        else checkHelmetPersonsE saveOk k d helmet_boxes rest
      | none => checkHelmetPersonsE saveOk k d helmet_boxes rest

/-! ## Alert store (src/alerts.py)

The sqlite table is modelled as a list of rows in insertion order, the
snapshot directory as an association list from file paths (character
lists) to the frames written there.  The timestamp is produced by
`datetime.now().isoformat()` outside the store and is threaded in as an
argument. -/

/-- Decimal digit characters of a natural number (the rendering used by
Python string interpolation of an `int`). -/
def natChars (n : ℕ) : List Char :=
  if h : n < 10 then [Nat.digitChar n]
  else natChars (n / 10) ++ [Nat.digitChar (n % 10)]
decreasing_by exact Nat.div_lt_self (by omega) (by omega)

/-- Decimal rendering of an integer: a leading minus sign when negative. -/
def intChars (i : ℤ) : List Char :=
  if i < 0 then '-' :: natChars (-i).toNat else natChars i.toNat

/-- Python renders `None` as the four letters `None` inside an f-string;
a present track id is rendered in decimal. -/
def optIntChars : Option ℤ → List Char
  | none => "None".data
  | some i => intChars i

/-- `timestamp.replace(':', '-')`: every colon becomes a dash. -/
def replaceColon (l : List Char) : List Char :=
  l.map fun c => if c = ':' then '-' else c

/-- Decimal value of a digit character (used to invert `natChars`). -/
def digitVal (c : Char) : ℕ := c.toNat - 48

/-- The number denoted by a list of decimal digit characters. -/
def charsVal (l : List Char) : ℕ :=
  l.foldl (fun a c => 10 * a + digitVal c) 0

/-- The literal `alert_type` string interpolated into the file name. -/
def alertTypeChars : AlertType → List Char
  | .danger_zone => "danger_zone".data
  | .no_helmet => "no_helmet".data

/-- The snapshot file name computed by `save_alert`:
`camC_TYPE_trackT_TS.jpg` with `TS` the colon-replaced timestamp. -/
def snapshotFilename (camera_id : ℤ) (alert_type : AlertType)
    (track_id : Option ℤ) (ts : List Char) : List Char :=
  "cam".data ++ (intChars camera_id ++ ('_' ::
    (alertTypeChars alert_type ++ ("_track".data ++
      (optIntChars track_id ++ ('_' ::
        (replaceColon ts ++ ".jpg".data)))))))

/-- The snapshot directory prefix (`SNAPSHOTS_DIR`). -/
def SNAPSHOTS_DIR : List Char := "alerts/snapshots/".data

/-- One row of the `alerts` table. -/
structure AlertRow where
  id : ℕ
  camera_id : ℤ
  alert_type : AlertType
  track_id : Option ℤ
  timestamp : String
  snapshot_path : Option (List Char)
  details : Option String
deriving DecidableEq

/-- Durable state touched by `save_alert`: the alert table (insertion
order) and the snapshot directory contents. -/
structure Store where
  rows : List AlertRow
  files : List (List Char × Frame)
deriving DecidableEq

/-- The arguments `trigger_alert` is invoked with. -/
structure Notification where
  camera_id : ℤ
  alert_type : AlertType
  track_id : Option ℤ
  timestamp : String
deriving DecidableEq

/-- The snapshot step of `save_alert`: when a frame is supplied, compute
the path and write the image file; otherwise the path stays null and the
directory is untouched. -/
def snapshotStep (st : Store) (camera_id : ℤ) (alert_type : AlertType)
    (track_id : Option ℤ) (frame : Option Frame) (timestamp : String) :
    Option (List Char) × List (List Char × Frame) :=
  match frame with
  | some f =>
    let p := SNAPSHOTS_DIR ++
      snapshotFilename camera_id alert_type track_id timestamp.data
    (some p, (p, f) :: st.files)
  | none => (none, st.files)

/-- The row inserted by `save_alert` (the auto-increment id is the row
count so far plus one; the table is append-only in this codebase). -/
def insertedRow (st : Store) (camera_id : ℤ) (alert_type : AlertType)
    (track_id : Option ℤ) (frame : Option Frame) (details : Option String)
    (timestamp : String) : AlertRow :=
  { id := st.rows.length + 1, camera_id := camera_id,
    alert_type := alert_type, track_id := track_id,
    timestamp := timestamp,
    snapshot_path := (snapshotStep st camera_id alert_type track_id frame
      timestamp).1,
    details := details }

/-- `save_alert`: write the snapshot (if any), insert one row, commit, and
then invoke the notification hook `trigger_alert` with the alert's
identity. Returns the new store and the notification made. -/
def save_alert (st : Store) (camera_id : ℤ) (alert_type : AlertType)
    (track_id : Option ℤ) (frame : Option Frame) (details : Option String)
    (timestamp : String) : Store × Notification :=
  let sp := snapshotStep st camera_id alert_type track_id frame timestamp
  ({ rows := st.rows ++
      [insertedRow st camera_id alert_type track_id frame details timestamp],
     files := sp.2 },
   { camera_id := camera_id, alert_type := alert_type,
     track_id := track_id, timestamp := timestamp })

/-- `save_alert` with a fallible durable write (`INSERT` + `commit`):
when the write raises, execution aborts before `trigger_alert`, so the
error branch carries no notification and the table is unchanged (the
snapshot file, written before the insert, may already exist). -/
def save_alert_run (st : Store) (camera_id : ℤ) (alert_type : AlertType)
    (track_id : Option ℤ) (frame : Option Frame) (details : Option String)
    (timestamp : String) (insertOk : Bool) :
    Except Store (Store × Notification) :=
  let sp := snapshotStep st camera_id alert_type track_id frame timestamp
  if insertOk then
    .ok (save_alert st camera_id alert_type track_id frame details timestamp)
  else .error { rows := st.rows, files := sp.2 }

/-- The descending-timestamp comparison of `ORDER BY timestamp DESC`
(sqlite compares TEXT timestamps bytewise; ISO-8601 strings compare
consistently with chronological order). -/
def tsDesc (a b : AlertRow) : Prop :=
  b.timestamp ≤ a.timestamp

instance : DecidableRel tsDesc := fun a b =>
  inferInstanceAs (Decidable (b.timestamp ≤ a.timestamp))

instance : IsTotal AlertRow tsDesc :=
  ⟨fun a b => le_total b.timestamp a.timestamp⟩

instance : IsTrans AlertRow tsDesc :=
  ⟨fun _ _ _ h1 h2 => le_trans h2 h1⟩

/-- `get_recent_alerts`: optionally filter by camera id, order by
timestamp descending, truncate to `limit` rows.  The SQL is a pure
`SELECT`, embedded as a function of the store. -/
def get_recent_alerts (st : Store) (camera_id : Option ℤ) (limit : ℕ) :
    List AlertRow :=
  let matching := match camera_id with
    | some cid => st.rows.filter fun r => decide (r.camera_id = cid)
    | none => st.rows
  (List.insertionSort tsDesc matching).take limit

/-! ## Detector invariants -/

lemma checkZone_alerted_subset (d : DangerZoneDetector) (bs : List Box) :
    d.alerted_tracks ⊆ (checkZoneBoxes d bs).2.2.alerted_tracks := by
  induction bs generalizing d with
  | nil => simp [checkZoneBoxes]
  | cons b rest ih =>
    by_cases hc : b.cls = some 2
    · by_cases hz : pointInZone d.zone_polygon
        (truncQ ((b.x1 + b.x2) / 2), truncQ ((b.y1 + b.y2) / 2)) = true
      · cases htid : b.tid with
        | none => simpa [checkZoneBoxes, hc, hz, htid] using ih d
        | some u =>
          by_cases hm : u ∈ d.alerted_tracks
          · simpa [checkZoneBoxes, hc, hz, htid, hm] using ih d
          · refine Finset.Subset.trans
              (Finset.subset_insert u d.alerted_tracks) ?_
            simpa [checkZoneBoxes, hc, hz, htid, hm] using
              ih { d with alerted_tracks := insert u d.alerted_tracks }
      · simpa [checkZoneBoxes, hc, hz] using ih d
    · simpa [checkZoneBoxes, hc] using ih d

lemma checkHelmetPersons_alerted_subset (d : NoHelmetDetector)
    (hb bs : List Box) :
    d.alerted_tracks ⊆ (checkHelmetPersons d hb bs).2.2.alerted_tracks := by
  induction bs generalizing d with
  | nil => simp [checkHelmetPersons]
  | cons p rest ih =>
    by_cases hh : hasHelmet p hb = true
    · simpa [checkHelmetPersons, hh] using ih d
    · cases htid : p.tid with
      | none => simpa [checkHelmetPersons, hh, htid] using ih d
      | some u =>
        by_cases hm : u ∈ d.alerted_tracks
        · simpa [checkHelmetPersons, hh, htid, hm] using ih d
        · refine Finset.Subset.trans
            (Finset.subset_insert u d.alerted_tracks) ?_
          simpa [checkHelmetPersons, hh, htid, hm] using
            ih { d with alerted_tracks := insert u d.alerted_tracks }

lemma checkZone_count (d : DangerZoneDetector) (bs : List Box) (t : ℤ) :
    ((checkZoneBoxes d bs).2.1.countP fun e => decide (e.track_id = some t))
      + (if t ∈ d.alerted_tracks then 1 else 0)
      ≤ if t ∈ (checkZoneBoxes d bs).2.2.alerted_tracks then 1 else 0 := by
  induction bs generalizing d with
  | nil => simp [checkZoneBoxes]
  | cons b rest ih =>
    by_cases hc : b.cls = some 2
    · by_cases hz : pointInZone d.zone_polygon
        (truncQ ((b.x1 + b.x2) / 2), truncQ ((b.y1 + b.y2) / 2)) = true
      · cases htid : b.tid with
        | none => simpa [checkZoneBoxes, hc, hz, htid] using ih d
        | some u =>
          by_cases hm : u ∈ d.alerted_tracks
          · simpa [checkZoneBoxes, hc, hz, htid, hm] using ih d
          · have h2 := ih { d with alerted_tracks := insert u d.alerted_tracks }
            by_cases ht : u = t
            · subst ht
              simp only [Finset.mem_insert, true_or, if_true] at h2
              simp [checkZoneBoxes, hc, hz, htid, hm, List.countP_cons]
              omega
            · have ht2 : t ≠ u := fun h => ht h.symm
              simp only [Finset.mem_insert, ht2, false_or] at h2
              simp [checkZoneBoxes, hc, hz, htid, hm, List.countP_cons, ht]
              omega
      · simpa [checkZoneBoxes, hc, hz] using ih d
    · simpa [checkZoneBoxes, hc] using ih d

lemma checkHelmetPersons_count (d : NoHelmetDetector) (hb bs : List Box)
    (t : ℤ) :
    ((checkHelmetPersons d hb bs).2.1.countP
        fun e => decide (e.track_id = some t))
      + (if t ∈ d.alerted_tracks then 1 else 0)
      ≤ if t ∈ (checkHelmetPersons d hb bs).2.2.alerted_tracks then 1
        else 0 := by
  induction bs generalizing d with
  | nil => simp [checkHelmetPersons]
  | cons p rest ih =>
    by_cases hh : hasHelmet p hb = true
    · simpa [checkHelmetPersons, hh] using ih d
    · cases htid : p.tid with
      | none => simpa [checkHelmetPersons, hh, htid] using ih d
      | some u =>
        by_cases hm : u ∈ d.alerted_tracks
        · simpa [checkHelmetPersons, hh, htid, hm] using ih d
        · have h2 := ih { d with alerted_tracks := insert u d.alerted_tracks }
          by_cases ht : u = t
          · subst ht
            simp only [Finset.mem_insert, true_or, if_true] at h2
            simp [checkHelmetPersons, hh, htid, hm, List.countP_cons]
            omega
          · have ht2 : t ≠ u := fun h => ht h.symm
            simp only [Finset.mem_insert, ht2, false_or] at h2
            simp [checkHelmetPersons, hh, htid, hm, List.countP_cons, ht]
            omega

lemma runZone_count (d : DangerZoneDetector) (fs : List (List Box)) (t : ℤ) :
    ((runZone d fs).2.1.countP fun e => decide (e.track_id = some t))
      + (if t ∈ d.alerted_tracks then 1 else 0)
      ≤ if t ∈ (runZone d fs).2.2.alerted_tracks then 1 else 0 := by
  induction fs generalizing d with
  | nil => simp [runZone]
  | cons f fs ih =>
    have h1 := checkZone_count d f t
    have h2 := ih (checkZoneBoxes d f).2.2
    simp only [runZone, List.countP_append]
    omega

lemma runHelmet_count (d : NoHelmetDetector) (fs : List (List Box)) (t : ℤ) :
    ((runHelmet d fs).2.1.countP fun e => decide (e.track_id = some t))
      + (if t ∈ d.alerted_tracks then 1 else 0)
      ≤ if t ∈ (runHelmet d fs).2.2.alerted_tracks then 1 else 0 := by
  induction fs generalizing d with
  | nil => simp [runHelmet]
  | cons f fs ih =>
    have h1 := checkHelmetPersons_count d
      (f.filter fun b => decide (b.cls = some 0))
      (f.filter fun b => decide (b.cls = some 2)) t
    have h2 := ih (checkHelmet d f).2.2
    simp only [runHelmet, List.countP_append]
    simp only [checkHelmet] at h2 ⊢
    omega

lemma checkZone_emit (d : DangerZoneDetector) (bs : List Box)
    (e : AlertEvent) (he : e ∈ (checkZoneBoxes d bs).2.1) :
    ∃ t, e.track_id = some t ∧ t ∉ d.alerted_tracks := by
  induction bs generalizing d with
  | nil => simp [checkZoneBoxes] at he
  | cons b rest ih =>
    by_cases hc : b.cls = some 2
    · by_cases hz : pointInZone d.zone_polygon
        (truncQ ((b.x1 + b.x2) / 2), truncQ ((b.y1 + b.y2) / 2)) = true
      · cases htid : b.tid with
        | none =>
          simp only [checkZoneBoxes, hc, hz, htid, if_true] at he
          exact ih d (by simpa using he)
        | some u =>
          by_cases hm : u ∈ d.alerted_tracks
          · simp only [checkZoneBoxes, hc, hz, htid] at he
            exact ih d (by simpa [hm] using he)
          · simp only [checkZoneBoxes, hc, hz, htid, hm] at he
            simp only [not_false_iff, if_true, List.mem_cons] at he
            rcases he with rfl | he
            · exact ⟨u, rfl, hm⟩
            · obtain ⟨t, h1, h2⟩ :=
                ih { d with alerted_tracks := insert u d.alerted_tracks }
                  (by simpa [hm] using he)
              refine ⟨t, h1, fun hmem => h2 ?_⟩
              exact Finset.mem_insert_of_mem hmem
      · simp only [checkZoneBoxes, hc, hz] at he
        exact ih d (by simpa [hz] using he)
    · simp only [checkZoneBoxes, hc] at he
      exact ih d (by simpa [hc] using he)

lemma checkHelmetPersons_emit (d : NoHelmetDetector) (hb bs : List Box)
    (e : AlertEvent) (he : e ∈ (checkHelmetPersons d hb bs).2.1) :
    ∃ t, e.track_id = some t ∧ t ∉ d.alerted_tracks := by
  induction bs generalizing d with
  | nil => simp [checkHelmetPersons] at he
  | cons p rest ih =>
    by_cases hh : hasHelmet p hb = true
    · simp only [checkHelmetPersons, hh] at he
      exact ih d (by simpa using he)
    · cases htid : p.tid with
      | none =>
        simp only [checkHelmetPersons, hh, htid] at he
        exact ih d (by simpa using he)
      | some u =>
        by_cases hm : u ∈ d.alerted_tracks
        · simp only [checkHelmetPersons, hh, htid] at he
          exact ih d (by simpa [hm] using he)
        · simp [checkHelmetPersons, hh, htid, hm, List.mem_cons] at he
          rcases he with rfl | he
          · exact ⟨u, rfl, hm⟩
          · obtain ⟨t, h1, h2⟩ :=
              ih { d with alerted_tracks := insert u d.alerted_tracks }
                (by simpa [hm] using he)
            refine ⟨t, h1, fun hmem => h2 ?_⟩
            exact Finset.mem_insert_of_mem hmem

lemma runZone_emit (d : DangerZoneDetector) (fs : List (List Box))
    (e : AlertEvent) (he : e ∈ (runZone d fs).2.1) :
    ∃ t, e.track_id = some t := by
  induction fs generalizing d with
  | nil => simp [runZone] at he
  | cons f fs ih =>
    simp only [runZone, List.mem_append] at he
    rcases he with he | he
    · obtain ⟨t, h1, _⟩ := checkZone_emit d f e he
      exact ⟨t, h1⟩
    · exact ih (checkZoneBoxes d f).2.2 he

lemma runHelmet_emit (d : NoHelmetDetector) (fs : List (List Box))
    (e : AlertEvent) (he : e ∈ (runHelmet d fs).2.1) :
    ∃ t, e.track_id = some t := by
  induction fs generalizing d with
  | nil => simp [runHelmet] at he
  | cons f fs ih =>
    simp only [runHelmet, List.mem_append] at he
    rcases he with he | he
    · obtain ⟨t, h1, _⟩ := checkHelmetPersons_emit d _ _ e he
      exact ⟨t, h1⟩
    · exact ih (checkHelmet d f).2.2 he

lemma checkZone_marker (d : DangerZoneDetector) (bs : List Box) (b : Box)
    (hb : b ∈ bs) (hc : b.cls = some 2)
    (hz : pointInZone d.zone_polygon
      (truncQ ((b.x1 + b.x2) / 2), truncQ ((b.y1 + b.y2) / 2)) = true) :
    (truncQ ((b.x1 + b.x2) / 2), truncQ ((b.y1 + b.y2) / 2)) ∈
      (checkZoneBoxes d bs).1 := by
  induction bs generalizing d with
  | nil => simp at hb
  | cons b0 rest ih =>
    rcases List.mem_cons.mp hb with rfl | hb
    · cases htid : b.tid with
      | none => simp [checkZoneBoxes, hc, hz, htid]
      | some u =>
        by_cases hm : u ∈ d.alerted_tracks
        · simp [checkZoneBoxes, hc, hz, htid, hm]
        · simp [checkZoneBoxes, hc, hz, htid, hm]
    · by_cases hc0 : b0.cls = some 2
      · by_cases hz0 : pointInZone d.zone_polygon
          (truncQ ((b0.x1 + b0.x2) / 2), truncQ ((b0.y1 + b0.y2) / 2)) = true
        · cases htid : b0.tid with
          | none =>
            have h := ih d hb hz
            simp [checkZoneBoxes, hc0, hz0, htid, h]
          | some u =>
            by_cases hm : u ∈ d.alerted_tracks
            · have h := ih d hb hz
              simp [checkZoneBoxes, hc0, hz0, htid, hm, h]
            · have h := ih { d with alerted_tracks := insert u d.alerted_tracks }
                hb hz
              simp [checkZoneBoxes, hc0, hz0, htid, hm, h]
        · simp only [checkZoneBoxes, hc0, hz0]
          exact by simpa [hz0] using ih d hb hz
      · simp only [checkZoneBoxes, hc0]
        exact by simpa [hc0] using ih d hb hz

lemma checkHelmetPersons_marker (d : NoHelmetDetector) (hb bs : List Box)
    (p : Box) (hp : p ∈ bs) (hh : hasHelmet p hb = false) :
    (truncQ p.x1, truncQ p.y1, truncQ p.x2, truncQ p.y2) ∈
      (checkHelmetPersons d hb bs).1 := by
  induction bs generalizing d with
  | nil => simp at hp
  | cons p0 rest ih =>
    rcases List.mem_cons.mp hp with rfl | hp
    · cases htid : p.tid with
      | none => simp [checkHelmetPersons, hh, htid]
      | some u =>
        by_cases hm : u ∈ d.alerted_tracks
        · simp [checkHelmetPersons, hh, htid, hm]
        · simp [checkHelmetPersons, hh, htid, hm]
    · by_cases hh0 : hasHelmet p0 hb = true
      · simp only [checkHelmetPersons, hh0, if_true, ite_true]
        exact by simpa [hh0] using ih d hp
      · cases htid : p0.tid with
        | none =>
          have h := ih d hp
          simp [checkHelmetPersons, hh0, htid, h]
        | some u =>
          by_cases hm : u ∈ d.alerted_tracks
          · have h := ih d hp
            simp [checkHelmetPersons, hh0, htid, hm, h]
          · have h := ih { d with alerted_tracks := insert u d.alerted_tracks }
              hp
            simp [checkHelmetPersons, hh0, htid, hm, h]

lemma checkZoneBoxesE_error (saveOk : ℕ → Bool) (k : ℕ)
    (d : DangerZoneDetector) (bs : List Box) (s : Finset ℤ) (t : ℤ)
    (he : checkZoneBoxesE saveOk k d bs = .error (s, t)) :
    t ∉ s ∧ d.alerted_tracks ⊆ s := by
  induction bs generalizing k d with
  | nil => simp [checkZoneBoxesE] at he
  | cons b rest ih =>
    by_cases hc : b.cls = some 2
    · by_cases hz : pointInZone d.zone_polygon
        (truncQ ((b.x1 + b.x2) / 2), truncQ ((b.y1 + b.y2) / 2)) = true
      · cases htid : b.tid with
        | none =>
          simp only [checkZoneBoxesE, hc, hz, htid, if_true] at he
          exact ih k d (by simpa using he)
        | some u =>
          by_cases hm : u ∈ d.alerted_tracks
          · simp only [checkZoneBoxesE, hc, hz, htid] at he
            exact ih k d (by simpa [hm] using he)
          · by_cases hs : saveOk k = true
            · simp only [checkZoneBoxesE, hc, hz, htid, hm, hs] at he
              have h3 := ih (k + 1)
                { d with alerted_tracks := insert u d.alerted_tracks }
                (by simpa [hm, hs] using he)
              exact ⟨h3.1, Finset.Subset.trans
                (Finset.subset_insert u d.alerted_tracks) h3.2⟩
            · have hs2 : saveOk k = false := by
                cases hsk : saveOk k
                · rfl
                · exact absurd hsk hs
              simp only [checkZoneBoxesE, hc, hz, htid, hm, hs2,
                not_false_iff, if_true, ite_false, Bool.false_eq_true,
                Except.error.injEq, Prod.mk.injEq] at he
              obtain ⟨h1, h2⟩ := he
              subst h1; subst h2
              exact ⟨hm, Finset.Subset.refl _⟩
      · simp only [checkZoneBoxesE, hc, hz] at he
        exact ih k d (by simpa [hz] using he)
    · simp only [checkZoneBoxesE, hc] at he
      exact ih k d (by simpa [hc] using he)

lemma checkHelmetPersonsE_error (saveOk : ℕ → Bool) (k : ℕ)
    (d : NoHelmetDetector) (hb bs : List Box) (s : Finset ℤ) (t : ℤ)
    (he : checkHelmetPersonsE saveOk k d hb bs = .error (s, t)) :
    t ∉ s ∧ d.alerted_tracks ⊆ s := by
  induction bs generalizing k d with
  | nil => simp [checkHelmetPersonsE] at he
  | cons p rest ih =>
    by_cases hh : hasHelmet p hb = true
    · simp only [checkHelmetPersonsE, hh] at he
      exact ih k d (by simpa using he)
    · cases htid : p.tid with
      | none =>
        simp only [checkHelmetPersonsE, hh, htid] at he
        exact ih k d (by simpa using he)
      | some u =>
        by_cases hm : u ∈ d.alerted_tracks
        · simp only [checkHelmetPersonsE, hh, htid] at he
          exact ih k d (by simpa [hm] using he)
        · by_cases hs : saveOk k = true
          · simp only [checkHelmetPersonsE, hh, htid, hm, hs] at he
            have h3 := ih (k + 1)
              { d with alerted_tracks := insert u d.alerted_tracks }
              (by simpa [hm, hs] using he)
            exact ⟨h3.1, Finset.Subset.trans
              (Finset.subset_insert u d.alerted_tracks) h3.2⟩
          · have hs2 : saveOk k = false := by
              cases hsk : saveOk k
              · rfl
              · exact absurd hsk hs
            simp only [checkHelmetPersonsE, hh, htid, hm, hs2,
              not_false_iff, if_true, ite_false, Bool.false_eq_true,
              Except.error.injEq, Prod.mk.injEq] at he
            obtain ⟨h1, h2⟩ := he
            subst h1; subst h2
            exact ⟨hm, Finset.Subset.refl _⟩

/-! ## Decimal rendering and file-name injectivity -/

lemma digitChar_isDigit (d : ℕ) (h : d < 10) :
    (Nat.digitChar d).isDigit = true := by
  interval_cases d <;> decide

lemma digitVal_digitChar (d : ℕ) (h : d < 10) :
    digitVal (Nat.digitChar d) = d := by
  interval_cases d <;> decide

lemma charsVal_append (xs : List Char) (c : Char) :
    charsVal (xs ++ [c]) = 10 * charsVal xs + digitVal c := by
  simp [charsVal, List.foldl_append]

lemma charsVal_natChars (n : ℕ) : charsVal (natChars n) = n := by
  induction n using Nat.strong_induction_on with
  | _ n ih =>
    rw [natChars]
    split_ifs with h
    · simp [charsVal, digitVal_digitChar n h]
    · rw [charsVal_append, ih (n / 10) (Nat.div_lt_self (by omega) (by omega)),
        digitVal_digitChar _ (Nat.mod_lt n (by omega))]
      omega

lemma natChars_inj {m n : ℕ} (h : natChars m = natChars n) : m = n := by
  rw [← charsVal_natChars m, h, charsVal_natChars]

lemma natChars_mem_isDigit (n : ℕ) : ∀ c ∈ natChars n, c.isDigit = true := by
  induction n using Nat.strong_induction_on with
  | _ n ih =>
    intro c hc
    rw [natChars] at hc
    split_ifs at hc with h
    · simp only [List.mem_singleton] at hc
      subst hc
      exact digitChar_isDigit n h
    · rcases List.mem_append.mp hc with h1 | h1
      · exact ih (n / 10) (Nat.div_lt_self (by omega) (by omega)) c h1
      · simp only [List.mem_singleton] at h1
        subst h1
        exact digitChar_isDigit _ (Nat.mod_lt n (by omega))

lemma intChars_mem (i : ℤ) : ∀ c ∈ intChars i, c.isDigit = true ∨ c = '-' := by
  intro c hc
  unfold intChars at hc
  split_ifs at hc with h
  · rcases List.mem_cons.mp hc with rfl | hc
    · exact Or.inr rfl
    · exact Or.inl (natChars_mem_isDigit _ c hc)
  · exact Or.inl (natChars_mem_isDigit _ c hc)

lemma underscore_not_mem_intChars (i : ℤ) : '_' ∉ intChars i := by
  intro hc
  rcases intChars_mem i '_' hc with h | h
  · exact absurd h (by decide)
  · exact absurd h (by decide)

lemma natChars_ne_dash (n : ℕ) : '-' ∉ natChars n := by
  intro hc
  exact absurd (natChars_mem_isDigit n '-' hc) (by decide)

lemma intChars_inj {i j : ℤ} (h : intChars i = intChars j) : i = j := by
  unfold intChars at h
  split_ifs at h with hi hj hj
  · have h2 := natChars_inj (List.cons.inj h).2
    omega
  · exact absurd (h ▸ List.mem_cons_self '-' _) (natChars_ne_dash _)
  · exact absurd (h.symm ▸ List.mem_cons_self '-' _) (natChars_ne_dash _)
  · have h2 := natChars_inj h
    omega

lemma underscore_not_mem_optIntChars (t : Option ℤ) :
    '_' ∉ optIntChars t := by
  cases t with
  | none => decide
  | some i => exact underscore_not_mem_intChars i

lemma optIntChars_inj {t1 t2 : Option ℤ}
    (h : optIntChars t1 = optIntChars t2) : t1 = t2 := by
  cases t1 with
  | none =>
    cases t2 with
    | none => rfl
    | some j =>
      exfalso
      have hN : 'N' ∈ optIntChars (none : Option ℤ) := by decide
      rw [h] at hN
      rcases intChars_mem j 'N' hN with hx | hx
      · exact absurd hx (by decide)
      · exact absurd hx (by decide)
  | some i =>
    cases t2 with
    | none =>
      exfalso
      have hN : 'N' ∈ optIntChars (none : Option ℤ) := by decide
      rw [← h] at hN
      rcases intChars_mem i 'N' hN with hx | hx
      · exact absurd hx (by decide)
      · exact absurd hx (by decide)
    | some j => exact congrArg some (intChars_inj h)

lemma append_sep_inj : ∀ {xs xs2 ys ys2 : List Char}, '_' ∉ xs → '_' ∉ xs2 →
    xs ++ '_' :: ys = xs2 ++ '_' :: ys2 → xs = xs2 ∧ ys = ys2 := by
  intro xs
  induction xs with
  | nil =>
    intro xs2 ys ys2 _ hx2 h
    cases xs2 with
    | nil => simpa using h
    | cons c t =>
      simp only [List.nil_append, List.cons_append, List.cons.injEq] at h
      exact absurd (by rw [← h.1]; exact List.mem_cons_self _ _) hx2
  | cons c t ih =>
    intro xs2 ys ys2 hx hx2 h
    cases xs2 with
    | nil =>
      simp only [List.cons_append, List.nil_append, List.cons.injEq] at h
      exact absurd (by rw [h.1]; exact List.mem_cons_self _ _) hx
    | cons c2 t2 =>
      simp only [List.cons_append, List.cons.injEq] at h
      have hx' : '_' ∉ t := fun hm => hx (List.mem_cons_of_mem _ hm)
      have hx2' : '_' ∉ t2 := fun hm => hx2 (List.mem_cons_of_mem _ hm)
      obtain ⟨he, hys⟩ := ih hx' hx2' h.2
      exact ⟨by rw [h.1, he], hys⟩

lemma replaceColon_inj : ∀ {a b : List Char},
    (∀ i : ℕ, a[i]? = some ':' ↔ b[i]? = some ':') →
    replaceColon a = replaceColon b → a = b := by
  intro a
  induction a with
  | nil =>
    intro b _ h
    cases b with
    | nil => rfl
    | cons c t => simp [replaceColon] at h
  | cons c t ih =>
    intro b hag h
    cases b with
    | nil => simp [replaceColon] at h
    | cons c2 t2 =>
      simp only [replaceColon, List.map_cons, List.cons.injEq] at h
      have h0 := hag 0
      simp only [List.getElem?_cons_zero, Option.some.injEq] at h0
      have hrest : ∀ i : ℕ, t[i]? = some ':' ↔ t2[i]? = some ':' := by
        intro i
        have h1 := hag (i + 1)
        simpa only [List.getElem?_cons_succ] using h1
      have hh : c = c2 := by
        by_cases hc : c = ':'
        · rw [hc, h0.mp hc]
        · have hc2 : ¬ c2 = ':' := fun hx => hc (h0.mpr hx)
          simpa [hc, hc2] using h.1
      rw [hh, ih hrest h.2]

lemma snapshotFilename_inj (c1 c2 : ℤ) (a1 a2 : AlertType)
    (t1 t2 : Option ℤ) (ts1 ts2 : List Char)
    (hag : ∀ i : ℕ, ts1[i]? = some ':' ↔ ts2[i]? = some ':')
    (h : snapshotFilename c1 a1 t1 ts1 = snapshotFilename c2 a2 t2 ts2) :
    c1 = c2 ∧ a1 = a2 ∧ t1 = t2 ∧ ts1 = ts2 := by
  unfold snapshotFilename at h
  have h1 := List.append_cancel_left h
  obtain ⟨hcam, hrest⟩ := append_sep_inj (underscore_not_mem_intChars c1)
    (underscore_not_mem_intChars c2) h1
  have hc12 : c1 = c2 := intChars_inj hcam
  have hfin : a1 = a2 ∧ t1 = t2 ∧ ts1 = ts2 := by
    cases a1 <;> cases a2
    case danger_zone.no_helmet =>
      exfalso
      have e1 : alertTypeChars AlertType.danger_zone =
          'd' :: "anger_zone".data := rfl
      have e2 : alertTypeChars AlertType.no_helmet =
          'n' :: "o_helmet".data := rfl
      rw [e1, e2] at hrest
      simp only [List.cons_append, List.cons.injEq] at hrest
      exact absurd hrest.1 (by decide)
    case no_helmet.danger_zone =>
      exfalso
      have e1 : alertTypeChars AlertType.danger_zone =
          'd' :: "anger_zone".data := rfl
      have e2 : alertTypeChars AlertType.no_helmet =
          'n' :: "o_helmet".data := rfl
      rw [e1, e2] at hrest
      simp only [List.cons_append, List.cons.injEq] at hrest
      exact absurd hrest.1 (by decide)
    case danger_zone.danger_zone =>
      have h2 := List.append_cancel_left hrest
      have h3 := List.append_cancel_left h2
      obtain ⟨htrk, hjpg⟩ := append_sep_inj
        (underscore_not_mem_optIntChars t1)
        (underscore_not_mem_optIntChars t2) h3
      have hts : replaceColon ts1 = replaceColon ts2 :=
        List.append_cancel_right hjpg
      exact ⟨rfl, optIntChars_inj htrk, replaceColon_inj hag hts⟩
    case no_helmet.no_helmet =>
      have h2 := List.append_cancel_left hrest
      have h3 := List.append_cancel_left h2
      obtain ⟨htrk, hjpg⟩ := append_sep_inj
        (underscore_not_mem_optIntChars t1)
        (underscore_not_mem_optIntChars t2) h3
      have hts : replaceColon ts1 = replaceColon ts2 :=
        List.append_cancel_right hjpg
      exact ⟨rfl, optIntChars_inj htrk, replaceColon_inj hag hts⟩
  exact ⟨hc12, hfin⟩

/-- C1: feeding any sequence of frames to a single detector instance that
starts with an empty `alerted_tracks` set produces at most one alert per
distinct track id, for both detectors; moreover `alerted_tracks` grows
monotonically and an alert is emitted only for a track id absent from the
set at the start of the call. -/
theorem C1_at_most_once_alerting :
    (∀ (cid : ℤ) (zone : List (ℤ × ℤ)) (frames : List (List Box)) (t : ℤ),
      ((runZone ⟨cid, zone, ∅⟩ frames).2.1.countP
        fun e => decide (e.track_id = some t)) ≤ 1) ∧
    (∀ (cid : ℤ) (frames : List (List Box)) (t : ℤ),
      ((runHelmet ⟨cid, ∅⟩ frames).2.1.countP
        fun e => decide (e.track_id = some t)) ≤ 1) ∧
    (∀ (d : DangerZoneDetector) (bs : List Box),
      d.alerted_tracks ⊆ (checkZoneBoxes d bs).2.2.alerted_tracks) ∧
    (∀ (d : NoHelmetDetector) (hb bs : List Box),
      d.alerted_tracks ⊆ (checkHelmetPersons d hb bs).2.2.alerted_tracks) ∧
    (∀ (d : DangerZoneDetector) (bs : List Box),
      ∀ e ∈ (checkZoneBoxes d bs).2.1,
        ∃ t, e.track_id = some t ∧ t ∉ d.alerted_tracks) ∧
    (∀ (d : NoHelmetDetector) (hb bs : List Box),
      ∀ e ∈ (checkHelmetPersons d hb bs).2.1,
        ∃ t, e.track_id = some t ∧ t ∉ d.alerted_tracks) := by
  refine ⟨?_, ?_, checkZone_alerted_subset, checkHelmetPersons_alerted_subset,
    checkZone_emit, checkHelmetPersons_emit⟩
  · intro cid zone frames t
    have h := runZone_count ⟨cid, zone, ∅⟩ frames t
    simp only [Finset.not_mem_empty] at h
    split_ifs at h <;> omega
  · intro cid frames t
    have h := runHelmet_count ⟨cid, ∅⟩ frames t
    simp only [Finset.not_mem_empty] at h
    split_ifs at h <;> omega

/-- C1, witness: a concrete no-helmet frame with track id 7 emits the
alert with its track id absent from the fresh dedup set. -/
theorem C1_witness :
    ∃ t, (AlertEvent.mk 0 AlertType.no_helmet (some 7)
        "Person without helmet detected").track_id = some t ∧
      t ∉ (∅ : Finset ℤ) :=
  C1_at_most_once_alerting.2.2.2.2.2 ⟨0, ∅⟩ [] [⟨some 2, some 7, 0, 0, 1, 1⟩]
    (AlertEvent.mk 0 AlertType.no_helmet (some 7)
      "Person without helmet detected") (by decide)

/-- C5: in any run, every emitted alert carries a track id (so a detection
without one never alerts, however many frames it persists in), while a
violating detection with no track id is still visually flagged: its marker
(danger-zone center, or no-helmet rectangle) appears in the drawn
output of the call that processed it. -/
theorem C5_no_identity_suppression :
    (∀ (d : DangerZoneDetector) (frames : List (List Box)),
      ∀ e ∈ (runZone d frames).2.1, e.track_id ≠ none) ∧
    (∀ (d : NoHelmetDetector) (frames : List (List Box)),
      ∀ e ∈ (runHelmet d frames).2.1, e.track_id ≠ none) ∧
    (∀ (d : DangerZoneDetector) (bs : List Box), ∀ b ∈ bs,
      b.cls = some 2 → b.tid = none →
      pointInZone d.zone_polygon (truncQ ((b.x1 + b.x2) / 2),
        truncQ ((b.y1 + b.y2) / 2)) = true →
      (truncQ ((b.x1 + b.x2) / 2), truncQ ((b.y1 + b.y2) / 2)) ∈
        (checkZoneBoxes d bs).1) ∧
    (∀ (d : NoHelmetDetector) (bs : List Box), ∀ p ∈ bs,
      p.cls = some 2 → p.tid = none →
      hasHelmet p (bs.filter fun b => decide (b.cls = some 0)) = false →
      (truncQ p.x1, truncQ p.y1, truncQ p.x2, truncQ p.y2) ∈
        (checkHelmet d bs).1) := by
  refine ⟨?_, ?_, ?_, ?_⟩
  · intro d frames e he
    obtain ⟨t, h⟩ := runZone_emit d frames e he
    simp [h]
  · intro d frames e he
    obtain ⟨t, h⟩ := runHelmet_emit d frames e he
    simp [h]
  · intro d bs b hb hc _ hz
    exact checkZone_marker d bs b hb hc hz
  · intro d bs p hp hpc _ hh
    have hp2 : p ∈ bs.filter fun b => decide (b.cls = some 2) :=
      List.mem_filter.mpr ⟨hp, by simp [hpc]⟩
    exact checkHelmetPersons_marker d _ _ p hp2 hh

/-- C5, witness: a person detection with no track id and no helmet in
view is flagged with its rectangle in the drawn output. -/
theorem C5_witness :
    (truncQ (0 : ℚ), truncQ (0 : ℚ), truncQ (2 : ℚ), truncQ (2 : ℚ)) ∈
      (checkHelmet ⟨0, ∅⟩ [⟨some 2, none, 0, 0, 2, 2⟩]).1 :=
  C5_no_identity_suppression.2.2.2 ⟨0, ∅⟩ [⟨some 2, none, 0, 0, 2, 2⟩]
    ⟨some 2, none, 0, 0, 2, 2⟩ (by simp) rfl rfl (by rfl)

/-- C9: when `save_alert` raises during an alert attempt, the failing
track id has not been added to `alerted_tracks`: the set returned at the
point of failure does not contain it (and still contains everything that
was there at entry), for both detectors. -/
theorem C9_failed_save_not_recorded :
    (∀ (saveOk : ℕ → Bool) (k : ℕ) (d : DangerZoneDetector)
      (bs : List Box) (s : Finset ℤ) (t : ℤ),
      checkZoneBoxesE saveOk k d bs = .error (s, t) →
        t ∉ s ∧ d.alerted_tracks ⊆ s) ∧
    (∀ (saveOk : ℕ → Bool) (k : ℕ) (d : NoHelmetDetector)
      (hb bs : List Box) (s : Finset ℤ) (t : ℤ),
      checkHelmetPersonsE saveOk k d hb bs = .error (s, t) →
        t ∉ s ∧ d.alerted_tracks ⊆ s) :=
  ⟨checkZoneBoxesE_error, checkHelmetPersonsE_error⟩

/-- C9, witness: a concrete run where the first `save_alert` call raises
ends in an error whose dedup set does not contain the failing track. -/
theorem C9_witness :
    (7 : ℤ) ∉ (∅ : Finset ℤ) ∧
    (NoHelmetDetector.mk 0 ∅).alerted_tracks ⊆ (∅ : Finset ℤ) :=
  C9_failed_save_not_recorded.2 (fun _ => false) 0 ⟨0, ∅⟩ []
    [⟨some 2, some 7, 0, 0, 1, 1⟩] ∅ 7 (by rfl)

/-- C2, counterexample: the claim says a failed single-frame read leaves
the previously captured frame in place; in the code the read's frame
component (empty on failure) is stored unconditionally, so a stored frame
is overwritten by `none` and `get_last_frame` no longer returns it. -/
theorem C2_counterexample :
    camera_update_frame (some (0 : Frame)) (false, none) ≠ some (0 : Frame) ∧
    get_last_frame (camera_update_frame (some (0 : Frame)) (false, none)) =
      none := by
  decide

/-- C2 (amended): in the capture loop the success flag of `read` is
discarded and the slot is unconditionally overwritten with the frame
component of the read result; a failed read therefore stores `none`, and a
subsequent `get_last_frame` returns `none` rather than the previous
frame. -/
theorem C2_failed_read_clears_slot :
    ∀ (prev : Option Frame) (r : Bool × Option Frame),
      camera_update_frame prev r = r.2 ∧
      (r.2 = none → get_last_frame (camera_update_frame prev r) = none) := by
  intro prev r
  exact ⟨rfl, fun h => h⟩

/-- C2, witness for the amended claim at a concrete failed read over a
previously stored frame. -/
theorem C2_witness :
    ((false, none) : Bool × Option Frame).2 = none ∧
    get_last_frame (camera_update_frame (some (0 : Frame)) (false, none)) =
      none :=
  ⟨rfl, (C2_failed_read_clears_slot (some 0) (false, none)).2 rfl⟩

/-- C4: containment is decided by a point-in-polygon test whose boundary
verdict (result 0) counts as inside through the `>= 0` comparison; on the
square `[(0,0),(10,0),(10,10),(0,10)]` the point `(5,5)` is inside,
`(15,5)` is outside, and the boundary point `(0,5)` is inside. -/
theorem C4_point_in_polygon :
    (∀ (poly : List (ℤ × ℤ)) (p : ℤ × ℤ),
      onBoundary poly p = true → pointInZone poly p = true) ∧
    pointInZone [(0,0),(10,0),(10,10),(0,10)] (5,5) = true ∧
    pointInZone [(0,0),(10,0),(10,10),(0,10)] (15,5) = false ∧
    pointInZone [(0,0),(10,0),(10,10),(0,10)] (0,5) = true := by
  refine ⟨fun poly p h => ?_, by decide, by decide, by decide⟩
  simp [pointInZone, pointPolygonTest, h]

/-- C4, witness: the boundary point `(0,5)` of the square satisfies the
boundary hypothesis and is counted inside. -/
theorem C4_witness :
    onBoundary [(0,0),(10,0),(10,10),(0,10)] ((0 : ℤ), (5 : ℤ)) = true ∧
    pointInZone [(0,0),(10,0),(10,10),(0,10)] (0,5) = true :=
  ⟨by decide, C4_point_in_polygon.1 _ _ (by decide)⟩

/-- C3: a person is classified as helmeted iff some helmet box satisfies
`hx1 < x2 ∧ hx2 > x1 ∧ hy1 < y1 + 0.3*H ∧ hy2 > y1`; for the person box
`(100,100)-(200,300)` the helmet `(110,80)-(190,160)` qualifies (no
rectangle is drawn and no alert is emitted for the helmeted person) and
the helmet `(110,200)-(190,260)` does not (the person is flagged). -/
theorem C3_helmet_overlap_heuristic :
    (∀ (p : Box) (helmet_boxes : List Box),
      hasHelmet p helmet_boxes = true ↔ ∃ h ∈ helmet_boxes,
        h.x1 < p.x2 ∧ h.x2 > p.x1 ∧
          h.y1 < p.y1 + 3 / 10 * (p.y2 - p.y1) ∧ h.y2 > p.y1) ∧
    hasHelmet ⟨some 2, some 1, 100, 100, 200, 300⟩
      [⟨some 0, none, 110, 80, 190, 160⟩] = true ∧
    hasHelmet ⟨some 2, some 1, 100, 100, 200, 300⟩
      [⟨some 0, none, 110, 200, 190, 260⟩] = false ∧
    (checkHelmet ⟨0, ∅⟩ [⟨some 2, some 1, 100, 100, 200, 300⟩,
      ⟨some 0, none, 110, 80, 190, 160⟩]) = ([], [], ⟨0, ∅⟩) ∧
    (checkHelmet ⟨0, ∅⟩ [⟨some 2, some 1, 100, 100, 200, 300⟩,
      ⟨some 0, none, 110, 200, 190, 260⟩]).1 = [(100, 100, 200, 300)] := by
  refine ⟨fun p helmet_boxes => ?_, ?_, ?_, ?_, ?_⟩
  · simp [hasHelmet, HelmetCovers, List.any_eq_true, mul_comm]
  · norm_num [hasHelmet, HelmetCovers]
  · norm_num [hasHelmet, HelmetCovers]
  · norm_num [checkHelmet, checkHelmetPersons, hasHelmet, HelmetCovers, truncQ]
  · norm_num [checkHelmet, checkHelmetPersons, hasHelmet, HelmetCovers, truncQ]

/-- C6: `get_recent_alerts` returns at most `limit` rows, sorted
newest-first by timestamp, all drawn from the alert table, and the result
is a truncation of a sorted permutation of exactly the rows the query
selects (so the entries kept are the most recent ones) — both for the
camera-filtered call, where additionally every returned row has the given
camera id and the selected rows are exactly that camera's rows, and for
the unfiltered call (`camera_id = None`), where all rows are selected.
The query itself is embedded as a pure function of the store: it cannot
change the table. -/
theorem C6_recent_alerts_query :
    ∀ (st : Store) (cid : ℤ) (limit : ℕ),
      (∀ r ∈ get_recent_alerts st (some cid) limit, r.camera_id = cid) ∧
      (get_recent_alerts st (some cid) limit).length ≤ limit ∧
      (get_recent_alerts st (some cid) limit).Sorted tsDesc ∧
      (∀ r ∈ get_recent_alerts st (some cid) limit, r ∈ st.rows) ∧
      (∃ l : List AlertRow,
        l.Perm (st.rows.filter fun r => decide (r.camera_id = cid)) ∧
        l.Sorted tsDesc ∧
        get_recent_alerts st (some cid) limit = l.take limit) ∧
      (get_recent_alerts st none limit).length ≤ limit ∧
      (get_recent_alerts st none limit).Sorted tsDesc ∧
      (∀ r ∈ get_recent_alerts st none limit, r ∈ st.rows) ∧
      (∃ l : List AlertRow, l.Perm st.rows ∧ l.Sorted tsDesc ∧
        get_recent_alerts st none limit = l.take limit) := by
  intro st cid limit
  have hperm := List.perm_insertionSort tsDesc
    (st.rows.filter fun r => decide (r.camera_id = cid))
  have hsort := List.sorted_insertionSort tsDesc
    (st.rows.filter fun r => decide (r.camera_id = cid))
  have hpermN := List.perm_insertionSort tsDesc st.rows
  have hsortN := List.sorted_insertionSort tsDesc st.rows
  refine ⟨?_, ?_, ?_, ?_, ?_, ?_, ?_, ?_, ?_⟩
  · intro r hr
    have h1 : r ∈ List.insertionSort tsDesc
        (st.rows.filter fun r => decide (r.camera_id = cid)) :=
      List.take_subset _ _ hr
    have h2 := hperm.mem_iff.mp h1
    simpa using (List.mem_filter.mp h2).2
  · exact List.length_take_le _ _
  · exact List.Pairwise.sublist (List.take_sublist _ _) hsort
  · intro r hr
    have h1 : r ∈ List.insertionSort tsDesc
        (st.rows.filter fun r => decide (r.camera_id = cid)) :=
      List.take_subset _ _ hr
    exact List.mem_of_mem_filter (hperm.mem_iff.mp h1)
  · exact ⟨_, hperm, hsort, rfl⟩
  · exact List.length_take_le _ _
  · exact List.Pairwise.sublist (List.take_sublist _ _) hsortN
  · intro r hr
    have h1 : r ∈ List.insertionSort tsDesc st.rows :=
      List.take_subset _ _ hr
    exact hpermN.mem_iff.mp h1
  · exact ⟨_, hpermN, hsortN, rfl⟩

/-- C10: `save_alert` with no frame inserts exactly one row whose
`snapshot_path` is null, writes no snapshot file, and still invokes the
notification hook with the alert's identity. -/
theorem C10_no_frame_alert :
    ∀ (st : Store) (cid : ℤ) (atype : AlertType) (tid : Option ℤ)
      (dl : Option String) (ts : String),
      (save_alert st cid atype tid none dl ts).1.rows =
        st.rows ++ [insertedRow st cid atype tid none dl ts] ∧
      (insertedRow st cid atype tid none dl ts).snapshot_path = none ∧
      (save_alert st cid atype tid none dl ts).1.files = st.files ∧
      (save_alert st cid atype tid none dl ts).2 = ⟨cid, atype, tid, ts⟩ := by
  intro st cid atype tid dl ts
  exact ⟨rfl, rfl, rfl, rfl⟩

/-- C7: `save_alert` with a frame appends exactly one row, whose
`snapshot_path` is non-null and is the path the frame was persisted under
(so its lookup in the snapshot directory yields the frame); that row is
retrievable through `get_recent_alerts`; the file name is the
deterministic function of camera id, alert kind, track id, and the
colon-replaced timestamp, and this function is injective: calls agreeing
on none or not all of those components (with timestamps whose colons sit
at matching positions, as ISO-8601 timestamps do) get distinct names. -/
theorem C7_snapshot_roundtrip :
    ∀ (st : Store) (cid : ℤ) (atype : AlertType) (tid : Option ℤ)
      (f : Frame) (dl : Option String) (ts : String) (limit : ℕ),
      st.rows.length < limit →
      (save_alert st cid atype tid (some f) dl ts).1.rows =
        st.rows ++ [insertedRow st cid atype tid (some f) dl ts] ∧
      (insertedRow st cid atype tid (some f) dl ts).snapshot_path =
        some (SNAPSHOTS_DIR ++ snapshotFilename cid atype tid ts.data) ∧
      insertedRow st cid atype tid (some f) dl ts ∈
        get_recent_alerts (save_alert st cid atype tid (some f) dl ts).1
          (some cid) limit ∧
      (save_alert st cid atype tid (some f) dl ts).1.files.lookup
        (SNAPSHOTS_DIR ++ snapshotFilename cid atype tid ts.data) =
        some f ∧
      (∀ (c1 c2 : ℤ) (a1 a2 : AlertType) (t1 t2 : Option ℤ)
        (ts1 ts2 : List Char),
        (∀ i : ℕ, ts1[i]? = some ':' ↔ ts2[i]? = some ':') →
        snapshotFilename c1 a1 t1 ts1 = snapshotFilename c2 a2 t2 ts2 →
        c1 = c2 ∧ a1 = a2 ∧ t1 = t2 ∧ ts1 = ts2) := by
  intro st cid atype tid f dl ts limit hlim
  refine ⟨rfl, rfl, ?_, ?_, snapshotFilename_inj⟩
  · have hcam : (insertedRow st cid atype tid (some f) dl ts).camera_id =
        cid := rfl
    have hmem0 : insertedRow st cid atype tid (some f) dl ts ∈
        ((st.rows ++ [insertedRow st cid atype tid (some f) dl ts]).filter
          fun r => decide (r.camera_id = cid)) :=
      List.mem_filter.mpr ⟨by simp, by simp [hcam]⟩
    have hperm := List.perm_insertionSort tsDesc
      ((st.rows ++ [insertedRow st cid atype tid (some f) dl ts]).filter
        fun r => decide (r.camera_id = cid))
    have hlen : (List.insertionSort tsDesc
        ((st.rows ++ [insertedRow st cid atype tid (some f) dl ts]).filter
          fun r => decide (r.camera_id = cid))).length ≤ limit := by
      rw [hperm.length_eq]
      have h2 := List.length_filter_le
        (fun r => decide (r.camera_id = cid))
        (st.rows ++ [insertedRow st cid atype tid (some f) dl ts])
      simp only [List.length_append, List.length_singleton] at h2
      omega
    show insertedRow st cid atype tid (some f) dl ts ∈
      (List.insertionSort tsDesc
        ((st.rows ++ [insertedRow st cid atype tid (some f) dl ts]).filter
          fun r => decide (r.camera_id = cid))).take limit
    rw [List.take_of_length_le hlen]
    exact hperm.mem_iff.mpr hmem0
  · show List.lookup _ ((SNAPSHOTS_DIR ++
        snapshotFilename cid atype tid ts.data, f) :: st.files) = some f
    simp [List.lookup]

/-- C7, witness: a concrete saved alert with a frame is the single new
row and is returned by the recent-alerts query. -/
theorem C7_witness :
    insertedRow ⟨[], []⟩ 0 AlertType.danger_zone (some 1) (some 0) none
        "2025-01-01T00:00:00" ∈
      get_recent_alerts
        (save_alert ⟨[], []⟩ 0 AlertType.danger_zone (some 1) (some 0) none
          "2025-01-01T00:00:00").1 (some 0) 1 :=
  (C7_snapshot_roundtrip ⟨[], []⟩ 0 AlertType.danger_zone (some 1) 0 none
    "2025-01-01T00:00:00" 1 (by decide)).2.2.1

/-- C8: the notification fires only after the durable write: a successful
run returns the committed store together with a notification whose fields
match the row just persisted (which is in the table), and a failed insert
aborts with an error that carries no notification and leaves the table
unchanged. -/
theorem C8_notification_after_commit :
    ∀ (st : Store) (cid : ℤ) (atype : AlertType) (tid : Option ℤ)
      (frame : Option Frame) (dl : Option String) (ts : String),
      save_alert_run st cid atype tid frame dl ts true =
        .ok (save_alert st cid atype tid frame dl ts) ∧
      save_alert_run st cid atype tid frame dl ts false =
        .error ⟨st.rows, (snapshotStep st cid atype tid frame ts).2⟩ ∧
      insertedRow st cid atype tid frame dl ts ∈
        (save_alert st cid atype tid frame dl ts).1.rows ∧
      (insertedRow st cid atype tid frame dl ts).camera_id =
        (save_alert st cid atype tid frame dl ts).2.camera_id ∧
      (insertedRow st cid atype tid frame dl ts).alert_type =
        (save_alert st cid atype tid frame dl ts).2.alert_type ∧
      (insertedRow st cid atype tid frame dl ts).track_id =
        (save_alert st cid atype tid frame dl ts).2.track_id ∧
      (insertedRow st cid atype tid frame dl ts).timestamp =
        (save_alert st cid atype tid frame dl ts).2.timestamp := by
  intro st cid atype tid frame dl ts
  refine ⟨rfl, rfl, ?_, rfl, rfl, rfl, rfl⟩
  simp [save_alert]
